import Mathlib

/-!
Verification of the polkadot transaction pool against its design document.

Shallow embedding of `transaction-pool/src/lib.rs` (verified records, scoring,
readiness evaluation, verifier, pool submission) and of the network adapter in
`service/src/components.rs`. Machine integers are naturals with the 32-bit
nonce bound made explicit where it matters; fallible operations return
`Except`; the stateful readiness evaluator passes its nonce cache explicitly.
External collaborators (the chain api, the codec, the digest and the generic
extrinsic-pool engine) are modelled from the design document, as noted on each
definition.
-/

/-- Account identifier (Rust `AccountId`, modelled as a natural number). -/
abbrev AccountId := Nat

/-- Largest representable nonce, `u32::MAX`: the value `Bounded::max_value`
produces inside `Ready::is_ready` when the chain index lookup fails. -/
abbrev maxNonce : Nat := 2 ^ 32 - 1

/-- Content hash of a record. Modelled from the spec: the hash is the external
BLAKE2-256 digest of the canonical encoding; the claims use it only as an
identifier computed from the encoding, so the model carries the encoding. -/
abbrev Hash := List Nat

/-- Modelled from the spec: stands in for the external `BlakeTwo256::hash`
digest over the canonical encoding. -/
def blakeTwo256 (e : List Nat) : Hash := e

/-- Signing address of an extrinsic: a direct account id or an account-index
indirection (Rust `RawAddress`). -/
inductive Address where
  | id (a : AccountId)
  | index (i : Nat)
  deriving DecidableEq

/-- Body of an extrinsic: signing address, per-sender nonce (`index`) and an
opaque call payload which the pool never inspects (Rust `Extrinsic`). -/
structure Extrinsic where
  signed : Address
  index : Nat
  function : Nat
  deriving DecidableEq

/-- Modelled from the spec: the runtime `UncheckedExtrinsic` (external crate)
reduced to the fields the pool reads: the body plus an optional signature.
The raw signature bytes are reduced to the account the signature claims;
validity of the signature amounts to that account matching the resolved
sender, which is what the external `Checkable` implementation establishes. -/
structure UncheckedExtrinsic where
  extrinsic : Extrinsic
  signature : Option AccountId
  deriving DecidableEq

/-- Rust `UncheckedExtrinsic::is_signed`: the extrinsic carries a signature. -/
def UncheckedExtrinsic.is_signed (u : UncheckedExtrinsic) : Bool :=
  u.signature.isSome

/-- Checked counterpart of an extrinsic: sender resolved to an account id and
signature validated (Rust `CheckedExtrinsic`). -/
structure CheckedExtrinsic where
  signed : AccountId
  index : Nat
  function : Nat
  deriving DecidableEq

/-- Modelled from the spec: canonical encoding of an address (the external
codec is out of scope; any injective encoding represents it). -/
def encodeAddress : Address → List Nat
  | Address.id a => [0, a]
  | Address.index i => [1, i]

/-- Modelled from the spec: canonical encoding of an unchecked extrinsic by
the external codec. -/
def encodeUxt (u : UncheckedExtrinsic) : List Nat :=
  (match u.signature with
    | none => [0]
    | some s => [1, s]) ++ encodeAddress u.extrinsic.signed
    ++ [u.extrinsic.index, u.extrinsic.function]

/-- Helper for `decodeUxt`: decode the body after the signature. -/
def decodeBody (sig : Option AccountId) : List Nat → Option UncheckedExtrinsic
  | [0, a, i, f] => some ⟨⟨Address.id a, i, f⟩, sig⟩
  | [1, x, i, f] => some ⟨⟨Address.index x, i, f⟩, sig⟩
  | _ => none

/-- Modelled from the spec: decoding of an unchecked extrinsic by the external
codec; returns `none` on bytes that do not decode. -/
def decodeUxt : List Nat → Option UncheckedExtrinsic
  | 0 :: rest => decodeBody none rest
  | 1 :: s :: rest => decodeBody (some s) rest
  | _ => none

/-- Rust `VerifiedTransaction` (lib.rs): the canonical in-pool record. -/
structure VerifiedTransaction where
  original : UncheckedExtrinsic
  inner : Option CheckedExtrinsic
  sender : Option AccountId
  hash : Hash
  encoded_size : Nat
  deriving DecidableEq

/-- Rust `VerifiedTransaction::index`: the nonce of the original extrinsic. -/
def VerifiedTransaction.index (t : VerifiedTransaction) : Nat :=
  t.original.extrinsic.index

/-- Rust `VerifiedTransaction::is_fully_verified`: the checked form exists. -/
def VerifiedTransaction.is_fully_verified (t : VerifiedTransaction) : Bool :=
  t.inner.isSome

/-- Invariant of records built by the verifier: the sender is present exactly
when the checked form is present. -/
def VerifiedTransaction.wf (t : VerifiedTransaction) : Prop :=
  t.sender.isSome = t.inner.isSome

/-- Rust `VerifiedTransaction::primitive_extrinsic`: re-encode the original
extrinsic for the wire (the Vec-of-bytes representation). -/
def VerifiedTransaction.primitive_extrinsic (t : VerifiedTransaction) : List Nat :=
  encodeUxt t.original

/-- Modelled from the spec: the external chain api (`PolkadotApi`) at the
interface the pool consumes: sender lookup, next-nonce lookup and block-id
checking, each of which can fail with a chain error. Block ids and checked
block ids are modelled as naturals. -/
structure ChainApi where
  lookup : Nat → Address → Except String (Option AccountId)
  index : Nat → AccountId → Except String Nat
  checkId : Nat → Except String Nat

/-- Rust `extrinsic_pool::scoring::Choice` as used by `Scoring::choose`. -/
inductive Choice where
  | insertNew
  | rejectNew
  | replaceOld
  deriving DecidableEq

/-- Rust `extrinsic_pool::Readiness`: verdict of the readiness evaluator. -/
inductive Readiness where
  | ready
  | future
  | stale
  deriving DecidableEq

/-- Rust `Scoring::choose` (lib.rs): with a fully verified old record, a fully
verified new record with the same nonce is rejected; every other pair falls
through to `InsertNew`. The failed assertion (old fully verified, new not) is
modelled as `none`. -/
def Scoring.choose (old new : VerifiedTransaction) : Option Choice :=
  if old.is_fully_verified then
    if new.is_fully_verified then
      if old.index = new.index then some Choice.rejectNew
      else some Choice.insertNew
    else none
  else some Choice.insertNew

/-- Nonce cache of the readiness evaluator (Rust `known_nonces : HashMap`),
modelled as an association list. -/
abbrev ReadyState := List (AccountId × Nat)

/-- Lookup in the nonce cache. -/
def lookupA : ReadyState → AccountId → Option Nat
  | [], _ => none
  | (b, n) :: rest, a => if a = b then some n else lookupA rest a

/-- Insert or update a binding in the nonce cache. -/
def insertA : ReadyState → AccountId → Nat → ReadyState
  | [], a, n => [(a, n)]
  | (b, m) :: rest, a, n =>
    if a = b then (a, n) :: rest else (b, m) :: insertA rest a n

/-- Saturating increment on 32-bit nonces (Rust `saturating_add(1)`). -/
def satAdd1 (n : Nat) : Nat := min (n + 1) maxNonce

/-- Seed of the nonce cache on first observation of a sender (lib.rs):
`api.index(at_block, sender).ok().unwrap_or_else(Bounded::max_value)`. -/
def seedNonce (api : ChainApi) (at_block : Nat) (a : AccountId) : Nat :=
  match api.index at_block a with
  | Except.ok n => n
  | Except.error _ => maxNonce

/-- The match on `xt.index.cmp(next_index)` in `Ready::is_ready`: greater
gives Future, equal gives Ready, less gives Stale. -/
def nonceVerdict (n expected : Nat) : Readiness :=
  if expected < n then Readiness.future
  else if n = expected then Readiness.ready
  else Readiness.stale

/-- Rust `Ready::is_ready` (lib.rs): a record without a sender is Future;
otherwise the cached next nonce for the sender (seeded from the chain on
first access, with `maxNonce` on lookup failure) decides the verdict, and the
cached value is incremented (saturating) regardless of the verdict. The
mutable evaluator is modelled by passing the cache in and out; a fresh
evaluator (Rust `Ready::create`) starts from the empty cache. -/
def Ready.is_ready (api : ChainApi) (at_block : Nat) (st : ReadyState)
    (xt : VerifiedTransaction) : Readiness × ReadyState :=
  match xt.sender with
  | none => (Readiness.future, st)
  | some sender =>
    let next := match lookupA st sender with
      | some n => n
      | none => seedNonce api at_block sender
    (nonceVerdict xt.index next, insertA st sender (satAdd1 next))

/-- Verdicts produced by one evaluator threaded over a list of records in
order, pairing each record with its verdict. -/
def sweepVerdicts (api : ChainApi) (at_block : Nat) :
    ReadyState → List VerifiedTransaction → List (VerifiedTransaction × Readiness)
  | _, [] => []
  | st, x :: xs =>
    let p := Ready.is_ready api at_block st x
    (x, p.1) :: sweepVerdicts api at_block p.2 xs

/-- Pool state: the resident records in enumeration order (grouped per sender,
ascending nonce within one sender, when well formed). -/
structure PoolState where
  records : List VerifiedTransaction
  deriving DecidableEq

/-- Modelled from the spec: the single pass of the external
`extrinsic_pool::Pool::cull_and_get_pending`: apply the readiness evaluator to
each record in order, drop Stale records from the pool, collect Ready records
for the caller and keep Ready and Future records resident. Returns the list
of Ready records and the list of surviving records. -/
def cullSweep (api : ChainApi) (at_block : Nat) :
    ReadyState → List VerifiedTransaction → List VerifiedTransaction × List VerifiedTransaction
  | _, [] => ([], [])
  | st, x :: xs =>
    let p := Ready.is_ready api at_block st x
    let r := cullSweep api at_block p.2 xs
    match p.1 with
    | Readiness.ready => (x :: r.1, x :: r.2)
    | Readiness.future => (r.1, x :: r.2)
    | Readiness.stale => r

/-- Modelled from the spec: `cull_and_get_pending(ready, f)` of the external
pool engine, with a fresh evaluator state: maps `f` over the Ready records
and keeps the surviving records. -/
def cull_and_get_pending {α : Type} (s : PoolState) (api : ChainApi) (at_block : Nat)
    (f : VerifiedTransaction → α) : List α × PoolState :=
  let p := cullSweep api at_block [] s.records
  (p.1.map f, ⟨p.2⟩)

/-- Error string used by the verifier for an unresolvable sender (lib.rs
`NO_ACCOUNT`). -/
def NO_ACCOUNT : String := "Account not found."

/-- The lookup closure built inside `Verifier::verify_transaction` (lib.rs):
a resolved account passes through, an absent account becomes the
`NO_ACCOUNT` error, any chain error becomes the generic api error. -/
def lookupFn (api : ChainApi) (at_block : Nat) (address : Address) :
    Except String AccountId :=
  match api.lookup at_block address with
  | Except.ok (some a) => Except.ok a
  | Except.ok none => Except.error NO_ACCOUNT
  | Except.error _ => Except.error "API error."

/-- Modelled from the spec: the external `Checkable::check` of the runtime
extrinsic: resolve the signing address through the supplied lookup, then
validate the signature against the payload (in this model the account the
signature claims must be the resolved account); lookup errors propagate. -/
def UncheckedExtrinsic.check (u : UncheckedExtrinsic)
    (lookup : Address → Except String AccountId) : Except String CheckedExtrinsic :=
  match lookup u.extrinsic.signed with
  | Except.error e => Except.error e
  | Except.ok a =>
    match u.signature with
    | none => Except.error "extrinsic not signed"
    | some s =>
      if s = a then Except.ok ⟨a, u.extrinsic.index, u.extrinsic.function⟩
      else Except.error "bad signature in extrinsic"

/-- Error kinds of the pool (`error.rs` / spec error taxonomy). -/
inductive PoolError where
  | IsInherent (uxt : UncheckedExtrinsic)
  | InvalidExtrinsicFormat
  | AlreadyImported (h : Hash)
  | Other (msg : String)
  deriving DecidableEq

/-- Rust `Verifier::verify_transaction` (lib.rs): reject unsigned extrinsics
as inherents; hash and measure the encoding; check the extrinsic with the
lookup closure; an unresolvable sender (`NO_ACCOUNT`) yields a partially
verified record instead of failing; any other check failure is an error. -/
def verify_transaction (api : ChainApi) (at_block : Nat)
    (uxt : UncheckedExtrinsic) : Except PoolError VerifiedTransaction :=
  if !uxt.is_signed then Except.error (PoolError.IsInherent uxt)
  else
    let e := encodeUxt uxt
    match uxt.check (lookupFn api at_block) with
    | Except.ok xt => Except.ok ⟨uxt, some xt, some xt.signed, blakeTwo256 e, e.length⟩
    | Except.error msg =>
      if msg = NO_ACCOUNT then
        Except.ok ⟨uxt, none, none, blakeTwo256 e, e.length⟩
      else Except.error (PoolError.Other msg)

/-- Rust `TransactionPool::retry_verification` (lib.rs): the function body is
empty apart from a comment saying it should re-verify the not fully verified
transactions; the pool state is untouched. -/
def TransactionPool.retry_verification (p : PoolState) : PoolState := p

/-- Modelled from the spec: single-item insertion of the external
`extrinsic_pool::Pool::submit`: a resident record with the same content hash,
or a fully verified resident with the same sender and nonce as a fully
verified newcomer, is reported as `AlreadyImported` with the existing hash;
otherwise the record is appended. Capacity eviction is not modelled; no claim
depends on it. -/
def poolInsert (s : PoolState) (tx : VerifiedTransaction) :
    Except PoolError (VerifiedTransaction × PoolState) :=
  match s.records.find? (fun r => r.hash == tx.hash) with
  | some r => Except.error (PoolError.AlreadyImported r.hash)
  | none =>
    match s.records.find? (fun r =>
        r.is_fully_verified && tx.is_fully_verified
          && r.sender == tx.sender && r.index == tx.index) with
    | some r => Except.error (PoolError.AlreadyImported r.hash)
    | none => Except.ok (tx, ⟨s.records ++ [tx]⟩)

/-- Rust `TransactionPool::import_unchecked_extrinsic` (lib.rs): check the
block id, verify the extrinsic at the checked block and submit the verified
record to the inner pool. -/
def TransactionPool.import_unchecked_extrinsic (api : ChainApi) (s : PoolState)
    (block : Nat) (uxt : UncheckedExtrinsic) :
    Except PoolError (VerifiedTransaction × PoolState) :=
  match api.checkId block with
  | Except.error e => Except.error (PoolError.Other e)
  | Except.ok at_block =>
    match verify_transaction api at_block uxt with
    | Except.error e => Except.error e
    | Except.ok tx => poolInsert s tx

/-- One item of an `ExtrinsicPool::submit` batch (lib.rs): decode the encoded
bytes, failing with `InvalidExtrinsicFormat`, then import the decoded
extrinsic. -/
def submitItem (api : ChainApi) (block : Nat) (s : PoolState) (encoded : List Nat) :
    Except PoolError (VerifiedTransaction × PoolState) :=
  match decodeUxt encoded with
  | none => Except.error PoolError.InvalidExtrinsicFormat
  | some decoded => TransactionPool.import_unchecked_extrinsic api s block decoded

/-- Rust `ExtrinsicPool::submit` for `TransactionPool` (lib.rs): the iterator
map plus `collect` into a Result processes the items in order and stops the
whole batch at the first failing item with that error; the hashes of all
items are reported only when every item succeeds. -/
def ExtrinsicPool.submit (api : ChainApi) (block : Nat) :
    PoolState → List (List Nat) → Except PoolError (List Hash) × PoolState
  | s, [] => (Except.ok [], s)
  | s, encoded :: rest =>
    match submitItem api block s encoded with
    | Except.error e => (Except.error e, s)
    | Except.ok (tx, s1) =>
      match ExtrinsicPool.submit api block s1 rest with
      | (Except.ok hs, s2) => (Except.ok (tx.hash :: hs), s2)
      | (Except.error e, s2) => (Except.error e, s2)

/-- Rust `TransactionPoolAdapter::import` (components.rs): refuse when
external imports are disabled; decode the bytes, returning none on failure;
submit into the pool, answering the new hash on success, the existing hash
on `AlreadyImported`, and none on any other error. The pool import operation is
a parameter, matching the adapter code which is generic in pool and api. -/
def TransactionPoolAdapter.importTx (imports_external_transactions : Bool)
    (poolImport : UncheckedExtrinsic → Except PoolError (VerifiedTransaction × PoolState))
    (transaction : List Nat) : Option Hash :=
  if !imports_external_transactions then none
  else
    match decodeUxt transaction with
    | some uxt =>
      match poolImport uxt with
      | Except.ok p => some p.1.hash
      | Except.error e =>
        match e with
        | PoolError.AlreadyImported h => some h
        | _ => none
    | none => none

/-- Rust `TransactionPoolAdapter::transactions` (components.rs): fetch the
best block (the client info result is a parameter), check its id, and run a
fresh readiness sweep over the pool, returning hash and encoding of each
Ready record; any chain failure degrades to the empty list. -/
def TransactionPoolAdapter.transactions (info : Except String Nat)
    (api : ChainApi) (s : PoolState) : List (Hash × List Nat) :=
  match info with
  | Except.error _ => []
  | Except.ok best =>
    match api.checkId best with
    | Except.error _ => []
    | Except.ok cid =>
      (cull_and_get_pending s api cid (fun t => (t.hash, t.primitive_extrinsic))).1

/-- Chain api for concrete instances: direct ids resolve to themselves, index
addresses resolve to nothing, every account expects nonce 209 (the constant
used throughout the design document), block ids check to themselves. -/
def apiOk : ChainApi :=
  ⟨fun _ addr => match addr with
    | Address.id a => Except.ok (some a)
    | Address.index _ => Except.ok none,
   fun _ _ => Except.ok 209,
   fun b => Except.ok b⟩

/-- Chain api whose nonce lookup always fails. -/
def apiFail : ChainApi :=
  ⟨fun _ addr => match addr with
    | Address.id a => Except.ok (some a)
    | Address.index _ => Except.ok none,
   fun _ _ => Except.error "index lookup failed",
   fun b => Except.ok b⟩

/-- Chain api whose nonce lookup answers the maximum representable nonce. -/
def apiMax : ChainApi :=
  ⟨fun _ addr => match addr with
    | Address.id a => Except.ok (some a)
    | Address.index _ => Except.ok none,
   fun _ _ => Except.ok maxNonce,
   fun b => Except.ok b⟩

/-- Fully verified record for concrete instances. -/
def mkRecord (a : AccountId) (n : Nat) : VerifiedTransaction :=
  ⟨⟨⟨Address.id a, n, 0⟩, some a⟩, some ⟨a, n, 0⟩, some a, [a, n], 4⟩

def r208 : VerifiedTransaction := mkRecord 1 208

def r209 : VerifiedTransaction := mkRecord 1 209

/-- Record with the same sender and nonce as `r209` but a different payload
and hash. -/
def r209b : VerifiedTransaction :=
  ⟨⟨⟨Address.id 1, 209, 1⟩, some 1⟩, some ⟨1, 209, 1⟩, some 1, [9, 9], 4⟩

def r210 : VerifiedTransaction := mkRecord 1 210

def rLow : VerifiedTransaction := mkRecord 0 0

def rMax : VerifiedTransaction := mkRecord 0 maxNonce

def rF : VerifiedTransaction := mkRecord 7 5

def uxtUnsigned : UncheckedExtrinsic := ⟨⟨Address.id 1, 0, 0⟩, none⟩

def goodUxt : UncheckedExtrinsic := ⟨⟨Address.id 5, 3, 0⟩, some 5⟩

def goodBytes : List Nat := encodeUxt goodUxt

def badBytes : List Nat := [99]

def emptyPool : PoolState := ⟨[]⟩

def vtGood : VerifiedTransaction :=
  ⟨goodUxt, some ⟨5, 3, 0⟩, some 5, blakeTwo256 (encodeUxt goodUxt), (encodeUxt goodUxt).length⟩

def poolGood : PoolState := ⟨[vtGood]⟩

/-- Pool import operation for the adapter instances: import into the empty
pool at block 0 through `apiOk`. -/
def poolImportW (u : UncheckedExtrinsic) : Except PoolError (VerifiedTransaction × PoolState) :=
  TransactionPool.import_unchecked_extrinsic apiOk emptyPool 0 u

def poolR : PoolState := ⟨[r209, r210]⟩

/-- Lookup after insert at the same key. -/
theorem lookupA_insertA_same (st : ReadyState) (a : AccountId) (n : Nat) :
    lookupA (insertA st a n) a = some n := by
  induction st with
  | nil => simp [insertA, lookupA]
  | cons p rest ih =>
    obtain ⟨b, m⟩ := p
    by_cases h : a = b
    · simp [insertA, h, lookupA]
    · simp [insertA, h, lookupA, ih]

/-- Characterization of the Future verdict. -/
theorem nonceVerdict_future_iff (n e : Nat) :
    nonceVerdict n e = Readiness.future ↔ e < n := by
  unfold nonceVerdict
  by_cases h1 : e < n
  · simp [h1]
  · by_cases h2 : n = e <;> simp [h1, h2]

/-- Characterization of the Ready verdict. -/
theorem nonceVerdict_ready_iff (n e : Nat) :
    nonceVerdict n e = Readiness.ready ↔ n = e := by
  unfold nonceVerdict
  by_cases h1 : e < n
  · constructor
    · intro h; simp [h1] at h
    · intro h; omega
  · by_cases h2 : n = e <;> simp [h1, h2]

/-- Characterization of the Stale verdict. -/
theorem nonceVerdict_stale_iff (n e : Nat) :
    nonceVerdict n e = Readiness.stale ↔ n < e := by
  unfold nonceVerdict
  by_cases h1 : e < n
  · constructor
    · intro h; simp [h1] at h
    · intro h; omega
  · by_cases h2 : n = e
    · constructor
      · intro h; simp [h1, h2] at h
      · intro h; omega
    · simp [h1, h2]; omega

/-- Reduction of `is_ready` for a record whose sender has a cached nonce. -/
theorem is_ready_cached (api : ChainApi) (atb : Nat) (st : ReadyState)
    (xt : VerifiedTransaction) (a : AccountId) (c : Nat)
    (hx : xt.sender = some a) (hst : lookupA st a = some c) :
    Ready.is_ready api atb st xt = (nonceVerdict xt.index c, insertA st a (satAdd1 c)) := by
  simp [Ready.is_ready, hx, hst]

/-- Reduction of `is_ready` for a record whose sender is not yet cached. -/
theorem is_ready_fresh (api : ChainApi) (atb : Nat) (st : ReadyState)
    (xt : VerifiedTransaction) (a : AccountId)
    (hx : xt.sender = some a) (hst : lookupA st a = none) :
    Ready.is_ready api atb st xt
      = (nonceVerdict xt.index (seedNonce api atb a),
         insertA st a (satAdd1 (seedNonce api atb a))) := by
  simp [Ready.is_ready, hx, hst]

/-- C8: a record without a sender is judged Future; otherwise the verdict is
Future, Ready or Stale exactly when the nonce is greater than, equal to, or
less than the cached expected next nonce for the sender, the cache being
seeded from the chain index lookup on first observation. -/
theorem c8_is_ready_verdict (api : ChainApi) (atb : Nat) (st : ReadyState)
    (xt : VerifiedTransaction) :
    (xt.sender = none → (Ready.is_ready api atb st xt).1 = Readiness.future)
    ∧ (∀ a, xt.sender = some a →
        ((Ready.is_ready api atb st xt).1 = Readiness.future
          ↔ (lookupA st a).getD (seedNonce api atb a) < xt.index)
        ∧ ((Ready.is_ready api atb st xt).1 = Readiness.ready
          ↔ xt.index = (lookupA st a).getD (seedNonce api atb a))
        ∧ ((Ready.is_ready api atb st xt).1 = Readiness.stale
          ↔ xt.index < (lookupA st a).getD (seedNonce api atb a))) := by
  constructor
  · intro h
    simp [Ready.is_ready, h]
  · intro a ha
    cases hst : lookupA st a with
    | none =>
      rw [is_ready_fresh api atb st xt a ha hst]
      simp [Option.getD, nonceVerdict_future_iff, nonceVerdict_ready_iff,
        nonceVerdict_stale_iff]
    | some c =>
      rw [is_ready_cached api atb st xt a c ha hst]
      simp [Option.getD, nonceVerdict_future_iff, nonceVerdict_ready_iff,
        nonceVerdict_stale_iff]

/-- C8 witness: a record at the seeded expected nonce is judged Ready. -/
theorem c8_witness : (Ready.is_ready apiOk 0 [] r209).1 = Readiness.ready :=
  (((c8_is_ready_verdict apiOk 0 [] r209).2 1 rfl).2.1).mpr (by decide)

/-- C1 counterexample: with a failing chain index lookup the evaluator judges
a record with a small nonce Stale, not Future. -/
theorem c1_counterexample :
    apiFail.index 0 7 = Except.error "index lookup failed"
    ∧ rF.sender = some 7
    ∧ (Ready.is_ready apiFail 0 [] rF).1 = Readiness.stale :=
  ⟨rfl, rfl, by decide⟩

/-- C1 amended: if the chain index lookup for a sender fails on first access,
the evaluator seeds the cached expected nonce with the maximum representable
nonce and keeps it there, and every record for that sender is judged Stale
when its nonce is below the maximum and Ready when it equals the maximum. -/
theorem c1_amended_seed_max (api : ChainApi) (atb : Nat) (a : AccountId)
    (e : String) (st : ReadyState) (xt : VerifiedTransaction)
    (hfail : api.index atb a = Except.error e)
    (hx : xt.sender = some a) (hb : xt.index ≤ maxNonce) :
    (lookupA st a = none →
      (Ready.is_ready api atb st xt).1
        = (if xt.index = maxNonce then Readiness.ready else Readiness.stale)
      ∧ lookupA (Ready.is_ready api atb st xt).2 a = some maxNonce)
    ∧ (lookupA st a = some maxNonce →
      (Ready.is_ready api atb st xt).1
        = (if xt.index = maxNonce then Readiness.ready else Readiness.stale)
      ∧ lookupA (Ready.is_ready api atb st xt).2 a = some maxNonce) := by
  have hseed : seedNonce api atb a = maxNonce := by simp [seedNonce, hfail]
  have hsat : satAdd1 maxNonce = maxNonce := by unfold satAdd1; omega
  have hverd : nonceVerdict xt.index maxNonce
      = (if xt.index = maxNonce then Readiness.ready else Readiness.stale) := by
    by_cases h : xt.index = maxNonce
    · simp [h, nonceVerdict_ready_iff]
    · have hlt : xt.index < maxNonce := by omega
      simp [h]
      exact (nonceVerdict_stale_iff _ _).mpr hlt
  constructor
  · intro hst
    rw [is_ready_fresh api atb st xt a hx hst, hseed, hsat]
    exact ⟨hverd, lookupA_insertA_same st a maxNonce⟩
  · intro hst
    rw [is_ready_cached api atb st xt a maxNonce hx hst, hsat]
    exact ⟨hverd, lookupA_insertA_same st a maxNonce⟩

/-- C1 witness: concrete failing-lookup evaluation through the amended
theorem. -/
theorem c1_witness :
    (Ready.is_ready apiFail 0 [] rF).1
      = (if rF.index = maxNonce then Readiness.ready else Readiness.stale)
    ∧ lookupA (Ready.is_ready apiFail 0 [] rF).2 7 = some maxNonce :=
  (c1_amended_seed_max apiFail 0 7 "index lookup failed" [] rF rfl rfl
    (by decide)).1 rfl

/-- C10 counterexample: when the chain expected nonce is the maximum
representable nonce, a record at that expected nonce evaluated after a
lower-nonce record is judged Ready, not Stale (the saturating increment
cannot move the cache past the maximum). -/
theorem c10_counterexample :
    apiMax.index 0 0 = Except.ok maxNonce
    ∧ rLow.index < maxNonce
    ∧ rMax.index = maxNonce
    ∧ (sweepVerdicts apiMax 0 [] [rLow, rMax]).map Prod.snd
        = [Readiness.stale, Readiness.ready] :=
  ⟨rfl, by decide, rfl, by decide⟩

/-- C10 amended: every `is_ready` call on a record with a sender increments
the cached expected nonce for that sender (saturating) regardless of the
verdict; consequently, when the chain expected nonce is below the maximum
representable nonce, a record whose nonce equals the chain expected nonce but
is evaluated after a record with a lower nonce is judged Stale. -/
theorem c10_amended_increment :
    (∀ (api : ChainApi) (atb : Nat) (st : ReadyState) (xt : VerifiedTransaction)
        (a : AccountId), xt.sender = some a →
      lookupA (Ready.is_ready api atb st xt).2 a
        = some (satAdd1 ((lookupA st a).getD (seedNonce api atb a))))
    ∧ (∀ (api : ChainApi) (atb : Nat) (a : AccountId) (E : Nat)
        (r1 r2 : VerifiedTransaction),
      api.index atb a = Except.ok E → E < maxNonce →
      r1.sender = some a → r2.sender = some a →
      r1.index < E → r2.index = E →
      (sweepVerdicts api atb [] [r1, r2]).map Prod.snd
        = [Readiness.stale, Readiness.stale]) := by
  constructor
  · intro api atb st xt a hx
    cases hst : lookupA st a with
    | none =>
      rw [is_ready_fresh api atb st xt a hx hst]
      simp [Option.getD, lookupA_insertA_same]
    | some c =>
      rw [is_ready_cached api atb st xt a c hx hst]
      simp [Option.getD, lookupA_insertA_same]
  · intro api atb a E r1 r2 hE hEmax h1 h2 hlt heq
    have hseed : seedNonce api atb a = E := by simp [seedNonce, hE]
    have hsat : satAdd1 E = E + 1 := by unfold satAdd1; omega
    have hfirst : Ready.is_ready api atb [] r1
        = (nonceVerdict r1.index E, insertA [] a (satAdd1 E)) := by
      rw [is_ready_fresh api atb [] r1 a h1 rfl, hseed]
    have hstale1 : nonceVerdict r1.index E = Readiness.stale :=
      (nonceVerdict_stale_iff _ _).mpr hlt
    have hcache : lookupA (insertA ([] : ReadyState) a (satAdd1 E)) a
        = some (E + 1) := by
      rw [hsat]; exact lookupA_insertA_same [] a (E + 1)
    have hsecond : Ready.is_ready api atb (insertA [] a (satAdd1 E)) r2
        = (nonceVerdict r2.index (E + 1),
           insertA (insertA [] a (satAdd1 E)) a (satAdd1 (E + 1))) :=
      is_ready_cached api atb _ r2 a (E + 1) h2 hcache
    have hstale2 : nonceVerdict r2.index (E + 1) = Readiness.stale :=
      (nonceVerdict_stale_iff _ _).mpr (by omega)
    simp [sweepVerdicts, hfirst, hstale1, hsecond, hstale2]

/-- C10 witness: concrete sweep in which a stale record shifts the cache so
that the record at the chain expected nonce is judged Stale. -/
theorem c10_witness :
    (sweepVerdicts apiOk 0 [] [r208, r209]).map Prod.snd
      = [Readiness.stale, Readiness.stale] :=
  c10_amended_increment.2 apiOk 0 1 209 r208 r209 rfl (by decide) rfl rfl
    (by decide) (by decide)

/-- The Ready verdict at matching nonces. -/
theorem nonceVerdict_self (n : Nat) : nonceVerdict n n = Readiness.ready :=
  (nonceVerdict_ready_iff n n).mpr rfl

/-- Sweep characterization from a cached nonce: when the cache holds `c` for
the sender of every record and no saturation can occur, the k-th record is
judged against `c + k`. -/
theorem sweepVerdicts_cached (api : ChainApi) (atb : Nat) (a : AccountId) :
    ∀ (xs : List VerifiedTransaction) (st : ReadyState) (c : Nat),
      lookupA st a = some c → (∀ x ∈ xs, x.sender = some a) →
      c + xs.length ≤ maxNonce →
      ∀ k, k < xs.length →
        ((sweepVerdicts api atb st xs).map Prod.snd).getD k Readiness.future
          = nonceVerdict ((xs.map VerifiedTransaction.index).getD k 0) (c + k) := by
  intro xs
  induction xs with
  | nil =>
    intro st c _ _ _ k hk
    simp at hk
  | cons x rest ih =>
    intro st c hst hall hbound k hk
    have hx : x.sender = some a := hall x (List.mem_cons_self x rest)
    have hread := is_ready_cached api atb st x a c hx hst
    have hsat : satAdd1 c = c + 1 := by
      unfold satAdd1
      simp [List.length] at hbound
      omega
    have hst1 : lookupA (insertA st a (satAdd1 c)) a = some (c + 1) := by
      rw [hsat]; exact lookupA_insertA_same st a (c + 1)
    cases k with
    | zero =>
      simp [sweepVerdicts, hread]
    | succ k =>
      have hall1 : ∀ x ∈ rest, x.sender = some a := by
        intro y hy; exact hall y (List.mem_cons_of_mem x hy)
      have hbound1 : (c + 1) + rest.length ≤ maxNonce := by
        simp [List.length] at hbound; omega
      have hk1 : k < rest.length := by simp [List.length] at hk; omega
      have hrec := ih (insertA st a (satAdd1 c)) (c + 1) hst1 hall1 hbound1 k hk1
      have harith : c + 1 + k = c + (k + 1) := by omega
      rw [harith] at hrec
      simpa [sweepVerdicts, hread] using hrec

/-- C3 counterexample: with chain expected nonce 209, a sweep over records
with nonces 208 and 210 judges the record with nonce 210 Ready, so the Ready
records do not form a run starting at the expected nonce 209. -/
theorem c3_counterexample :
    apiOk.index 0 1 = Except.ok 209
    ∧ (sweepVerdicts apiOk 0 [] [r208, r210]).map Prod.snd
        = [Readiness.stale, Readiness.ready]
    ∧ r210.index ≠ 209 :=
  ⟨rfl, by decide, by decide⟩

/-- C3 amended: in a single sweep the k-th record evaluated for one sender is
judged against the chain expected nonce plus k, so it is Ready exactly when
its nonce equals expected plus k; in particular a contiguous run of nonces
starting at the expected nonce is all judged Ready in one sweep (but the
Ready records need not start at the expected nonce when stale or gapped
records precede them). -/
theorem c3_amended_sweep (api : ChainApi) (atb : Nat) (a : AccountId) (E : Nat)
    (xs : List VerifiedTransaction)
    (hE : api.index atb a = Except.ok E)
    (hbound : E + xs.length ≤ maxNonce)
    (hall : ∀ x ∈ xs, x.sender = some a) :
    (∀ k, k < xs.length →
      ((sweepVerdicts api atb [] xs).map Prod.snd).getD k Readiness.future
        = nonceVerdict ((xs.map VerifiedTransaction.index).getD k 0) (E + k))
    ∧ ((∀ k, k < xs.length → (xs.map VerifiedTransaction.index).getD k 0 = E + k) →
      ∀ k, k < xs.length →
        ((sweepVerdicts api atb [] xs).map Prod.snd).getD k Readiness.future
          = Readiness.ready) := by
  have hmain : ∀ k, k < xs.length →
      ((sweepVerdicts api atb [] xs).map Prod.snd).getD k Readiness.future
        = nonceVerdict ((xs.map VerifiedTransaction.index).getD k 0) (E + k) := by
    cases xs with
    | nil => intro k hk; simp at hk
    | cons x rest =>
      intro k hk
      have hx : x.sender = some a := hall x (List.mem_cons_self x rest)
      have hseed : seedNonce api atb a = E := by simp [seedNonce, hE]
      have hread := is_ready_fresh api atb [] x a hx rfl
      rw [hseed] at hread
      have hsat : satAdd1 E = E + 1 := by
        unfold satAdd1
        simp [List.length] at hbound
        omega
      have hst1 : lookupA (insertA ([] : ReadyState) a (satAdd1 E)) a
          = some (E + 1) := by
        rw [hsat]; exact lookupA_insertA_same [] a (E + 1)
      cases k with
      | zero =>
        simp [sweepVerdicts, hread]
      | succ k =>
        have hall1 : ∀ x ∈ rest, x.sender = some a := by
          intro y hy; exact hall y (List.mem_cons_of_mem x hy)
        have hbound1 : (E + 1) + rest.length ≤ maxNonce := by
          simp [List.length] at hbound; omega
        have hk1 : k < rest.length := by simp [List.length] at hk; omega
        have hrec := sweepVerdicts_cached api atb a rest
          (insertA [] a (satAdd1 E)) (E + 1) hst1 hall1 hbound1 k hk1
        have harith : E + 1 + k = E + (k + 1) := by omega
        rw [harith] at hrec
        simpa [sweepVerdicts, hread] using hrec
  refine ⟨hmain, ?_⟩
  intro hcont k hk
  rw [hmain k hk, hcont k hk]
  exact nonceVerdict_self (E + k)

/-- C3 witness: a one-record run at the expected nonce is judged Ready. -/
theorem c3_witness :
    ((sweepVerdicts apiOk 0 [] [r209]).map Prod.snd).getD 0 Readiness.future
      = Readiness.ready :=
  (c3_amended_sweep apiOk 0 1 209 [r209] rfl (by decide)
    (by decide)).2 (by decide) 0 (by decide)

/-- C4: for records of the same sender bucket, `Scoring::choose` rejects a
fully verified newcomer colliding on nonce with a fully verified resident,
inserts a fully verified newcomer with a fresh nonce, behaves as stated in
the (within one bucket vacuous) fully-verified-versus-partial case, and
inserts whenever the resident is partially verified. -/
theorem c4_choose_policy (old new : VerifiedTransaction)
    (hwo : old.wf) (hwn : new.wf) (hb : old.sender = new.sender) :
    ((old.is_fully_verified = true ∧ new.is_fully_verified = true
        ∧ old.index = new.index)
      → Scoring.choose old new = some Choice.rejectNew)
    ∧ ((old.is_fully_verified = true ∧ new.is_fully_verified = true
        ∧ old.index ≠ new.index)
      → Scoring.choose old new = some Choice.insertNew)
    ∧ ((old.is_fully_verified = true ∧ new.is_fully_verified = false)
      → (old.index = new.index → Scoring.choose old new = some Choice.rejectNew)
        ∧ (old.index ≠ new.index → Scoring.choose old new = some Choice.insertNew))
    ∧ (old.is_fully_verified = false → Scoring.choose old new = some Choice.insertNew) := by
  refine ⟨?_, ?_, ?_, ?_⟩
  · rintro ⟨ho, hn, hi⟩
    simp [Scoring.choose, ho, hn, hi]
  · rintro ⟨ho, hn, hi⟩
    simp [Scoring.choose, ho, hn, hi]
  · rintro ⟨ho, hn⟩
    exfalso
    unfold VerifiedTransaction.is_fully_verified at ho hn
    unfold VerifiedTransaction.wf at hwo hwn
    rw [hb, hwn] at hwo
    rw [hn, ho] at hwo
    simp at hwo
  · intro ho
    simp [Scoring.choose, ho]

/-- C4 witness: two fully verified records of one sender with the same nonce;
the newcomer is rejected. -/
theorem c4_witness : Scoring.choose r209 r209b = some Choice.rejectNew :=
  (c4_choose_policy r209 r209b rfl rfl rfl).1 ⟨rfl, rfl, rfl⟩

/-- C5: `retry_verification` is an empty stub; it re-verifies nothing and
promotes nothing, leaving every pool state (and so every partially verified
record in it) exactly as it was, contradicting the claimed promotion sweep. -/
theorem c5_retry_verification_noop (p : PoolState) :
    TransactionPool.retry_verification p = p
    ∧ (TransactionPool.retry_verification p).records = p.records :=
  ⟨rfl, rfl⟩

/-- C6: `verify_transaction` fails with `IsInherent` exactly on unsigned
extrinsics; a signed extrinsic whose sender lookup answers no account yields
a partially verified record (sender and checked form absent) instead of
failing; a signed extrinsic whose sender lookup fails with a chain error
fails with the verifier api error. -/
theorem c6_verify_policy (api : ChainApi) (atb : Nat) (uxt : UncheckedExtrinsic) :
    (verify_transaction api atb uxt = Except.error (PoolError.IsInherent uxt)
      ↔ uxt.signature = none)
    ∧ (∀ s, uxt.signature = some s →
        api.lookup atb uxt.extrinsic.signed = Except.ok none →
        verify_transaction api atb uxt
          = Except.ok ⟨uxt, none, none, blakeTwo256 (encodeUxt uxt),
              (encodeUxt uxt).length⟩)
    ∧ (∀ s e, uxt.signature = some s →
        api.lookup atb uxt.extrinsic.signed = Except.error e →
        verify_transaction api atb uxt
          = Except.error (PoolError.Other "API error.")) := by
  refine ⟨?_, ?_, ?_⟩
  · cases hsig : uxt.signature with
    | none =>
      simp [verify_transaction, UncheckedExtrinsic.is_signed, hsig]
    | some s =>
      have hs : uxt.is_signed = true := by
        simp [UncheckedExtrinsic.is_signed, hsig]
      constructor
      · intro h
        exfalso
        rw [verify_transaction, hs] at h
        simp at h
        cases hc : uxt.check (lookupFn api atb) with
        | ok xt => rw [hc] at h; simp at h
        | error msg =>
          rw [hc] at h
          by_cases hm : msg = NO_ACCOUNT
          · simp [hm] at h
          · simp [hm] at h
      · intro h
        simp at h
  · intro s hsig hlk
    have hs : uxt.is_signed = true := by
      simp [UncheckedExtrinsic.is_signed, hsig]
    have hfn : lookupFn api atb uxt.extrinsic.signed = Except.error NO_ACCOUNT := by
      simp [lookupFn, hlk]
    have hchk : uxt.check (lookupFn api atb) = Except.error NO_ACCOUNT := by
      simp [UncheckedExtrinsic.check, hfn]
    rw [verify_transaction, hs]
    simp [hchk]
  · intro s e hsig hlk
    have hs : uxt.is_signed = true := by
      simp [UncheckedExtrinsic.is_signed, hsig]
    have hfn : lookupFn api atb uxt.extrinsic.signed
        = Except.error "API error." := by
      simp [lookupFn, hlk]
    have hchk : uxt.check (lookupFn api atb) = Except.error "API error." := by
      simp [UncheckedExtrinsic.check, hfn]
    have hne : ("API error." : String) ≠ NO_ACCOUNT := by decide
    rw [verify_transaction, hs]
    simp [hchk, hne]

/-- C6 witness: an unsigned extrinsic is rejected as inherent. -/
theorem c6_witness :
    verify_transaction apiOk 0 uxtUnsigned
      = Except.error (PoolError.IsInherent uxtUnsigned) :=
  (c6_verify_policy apiOk 0 uxtUnsigned).1.mpr rfl

/-- C2 counterexample: a batch whose first item fails to decode reports the
single error `InvalidExtrinsicFormat` and no outcome for the well-formed
second item, although that item alone reports its hash; one bad item poisons
the reported outcome of the whole batch. -/
theorem c2_counterexample :
    (ExtrinsicPool.submit apiOk 0 emptyPool [badBytes, goodBytes]).1
      = Except.error PoolError.InvalidExtrinsicFormat
    ∧ (ExtrinsicPool.submit apiOk 0 emptyPool [goodBytes]).1
      = Except.ok [vtGood.hash] :=
  ⟨rfl, rfl⟩

/-- Unfolding of `submit` on a batch whose head item fails. -/
theorem submit_cons_error (api : ChainApi) (block : Nat) (s : PoolState)
    (x : List Nat) (e : PoolError) (l : List (List Nat))
    (hx : submitItem api block s x = Except.error e) :
    ExtrinsicPool.submit api block s (x :: l) = (Except.error e, s) := by
  rw [ExtrinsicPool.submit, hx]

/-- Unfolding of `submit` on a batch whose head item succeeds. -/
theorem submit_cons_ok (api : ChainApi) (block : Nat) (s : PoolState)
    (x : List Nat) (tx : VerifiedTransaction) (s2 : PoolState) (l : List (List Nat))
    (hx : submitItem api block s x = Except.ok (tx, s2)) :
    ExtrinsicPool.submit api block s (x :: l)
      = (match ExtrinsicPool.submit api block s2 l with
         | (Except.ok hs, s3) => (Except.ok (tx.hash :: hs), s3)
         | (Except.error e, s3) => (Except.error e, s3)) := by
  rw [ExtrinsicPool.submit, hx]

/-- C2 amended: `submit` processes the items of a batch in order and stops
at the first failing item: after a successful prefix, a failing item makes
the whole batch report the error of that item, the items after it are not
processed and the pool keeps the successfully imported prefix. -/
theorem c2_amended_first_error (api : ChainApi) (block : Nat) (b : List Nat)
    (err : PoolError) (ys : List (List Nat)) :
    ∀ (xs : List (List Nat)) (s s1 : PoolState) (hs : List Hash),
      ExtrinsicPool.submit api block s xs = (Except.ok hs, s1) →
      submitItem api block s1 b = Except.error err →
      ExtrinsicPool.submit api block s (xs ++ b :: ys) = (Except.error err, s1) := by
  intro xs
  induction xs with
  | nil =>
    intro s s1 hs hok hitem
    have h0 : ExtrinsicPool.submit api block s ([] : List (List Nat))
        = (Except.ok [], s) := rfl
    rw [h0] at hok
    simp at hok
    obtain ⟨h1, h2⟩ := hok
    subst h2
    rw [List.nil_append]
    exact submit_cons_error api block s b err ys hitem
  | cons x rest ih =>
    intro s s1 hs hok hitem
    cases hx : submitItem api block s x with
    | error e =>
      rw [submit_cons_error api block s x e rest hx] at hok
      simp at hok
    | ok p =>
      obtain ⟨tx, s2⟩ := p
      rw [submit_cons_ok api block s x tx s2 rest hx] at hok
      cases hr : ExtrinsicPool.submit api block s2 rest with
      | mk res s3 =>
        rw [hr] at hok
        cases res with
        | error e => simp at hok
        | ok hs2 =>
          simp at hok
          obtain ⟨h1, h2⟩ := hok
          subst h2
          have hrec := ih s2 s3 hs2 hr hitem
          rw [List.cons_append]
          rw [submit_cons_ok api block s x tx s2 (rest ++ b :: ys) hx, hrec]

/-- C2 witness: the concrete batch good-then-bad stops at the bad item with
its error, keeping the imported good item. -/
theorem c2_witness :
    ExtrinsicPool.submit apiOk 0 emptyPool [goodBytes, badBytes]
      = (Except.error PoolError.InvalidExtrinsicFormat, poolGood) :=
  c2_amended_first_error apiOk 0 badBytes PoolError.InvalidExtrinsicFormat []
    [goodBytes] emptyPool poolGood [vtGood.hash] rfl rfl

/-- C7: the network adapter import returns none when external imports are
disabled, none on undecodable bytes, the existing hash when the pool reports
`AlreadyImported`, none on any other pool error, and the hash of the new
record on success. -/
theorem c7_adapter_import
    (poolImport : UncheckedExtrinsic → Except PoolError (VerifiedTransaction × PoolState))
    (t : List Nat) :
    (TransactionPoolAdapter.importTx false poolImport t = none)
    ∧ (∀ flag, decodeUxt t = none →
        TransactionPoolAdapter.importTx flag poolImport t = none)
    ∧ (∀ uxt h, decodeUxt t = some uxt →
        poolImport uxt = Except.error (PoolError.AlreadyImported h) →
        TransactionPoolAdapter.importTx true poolImport t = some h)
    ∧ (∀ uxt e, decodeUxt t = some uxt →
        poolImport uxt = Except.error e →
        (∀ h, e ≠ PoolError.AlreadyImported h) →
        TransactionPoolAdapter.importTx true poolImport t = none)
    ∧ (∀ uxt p, decodeUxt t = some uxt →
        poolImport uxt = Except.ok p →
        TransactionPoolAdapter.importTx true poolImport t = some p.1.hash) := by
  refine ⟨?_, ?_, ?_, ?_, ?_⟩
  · simp [TransactionPoolAdapter.importTx]
  · intro flag hdec
    cases flag <;> simp [TransactionPoolAdapter.importTx, hdec]
  · intro uxt h hdec hpool
    simp [TransactionPoolAdapter.importTx, hdec, hpool]
  · intro uxt e hdec hpool hne
    cases e with
    | AlreadyImported h => exact absurd rfl (hne h)
    | IsInherent u => simp [TransactionPoolAdapter.importTx, hdec, hpool]
    | InvalidExtrinsicFormat => simp [TransactionPoolAdapter.importTx, hdec, hpool]
    | Other msg => simp [TransactionPoolAdapter.importTx, hdec, hpool]
  · intro uxt p hdec hpool
    simp [TransactionPoolAdapter.importTx, hdec, hpool]

/-- C7 witness: importing well-formed bytes through the real pool import
returns the hash of the new record. -/
theorem c7_witness :
    TransactionPoolAdapter.importTx true poolImportW goodBytes = some vtGood.hash :=
  (c7_adapter_import poolImportW goodBytes).2.2.2.2 goodUxt (vtGood, poolGood)
    rfl rfl

/-- The Ready component of the cull sweep is the Ready-filtered verdict
sweep. -/
theorem cullSweep_ready_filter (api : ChainApi) (atb : Nat) :
    ∀ (xs : List VerifiedTransaction) (st : ReadyState),
      (cullSweep api atb st xs).1
        = ((sweepVerdicts api atb st xs).filter
            (fun p => p.2 == Readiness.ready)).map Prod.fst := by
  intro xs
  induction xs with
  | nil => intro st; rfl
  | cons x rest ih =>
    intro st
    rw [cullSweep, sweepVerdicts]
    have hbt : (Readiness.ready == Readiness.ready) = true := by decide
    have hbf : (Readiness.future == Readiness.ready) = false := by decide
    have hbs : (Readiness.stale == Readiness.ready) = false := by decide
    cases hv : (Ready.is_ready api atb st x).1 with
    | ready => simp [hv, List.filter, ih, hbt]
    | future => simp [hv, List.filter, ih, hbf]
    | stale => simp [hv, List.filter, ih, hbs]

/-- C9: the adapter transaction list is empty when fetching the best block or
checking its id fails, and otherwise consists of exactly the hash and
encoding of the records a fresh readiness evaluator at the best block judges
Ready, in sweep order. -/
theorem c9_adapter_transactions (api : ChainApi) (s : PoolState) (e : String)
    (b : Nat) :
    (TransactionPoolAdapter.transactions (Except.error e) api s = [])
    ∧ (api.checkId b = Except.error e →
        TransactionPoolAdapter.transactions (Except.ok b) api s = [])
    ∧ (∀ cid, api.checkId b = Except.ok cid →
        TransactionPoolAdapter.transactions (Except.ok b) api s
          = ((sweepVerdicts api cid [] s.records).filter
              (fun p => p.2 == Readiness.ready)).map
              (fun p => (p.1.hash, p.1.primitive_extrinsic))) := by
  refine ⟨rfl, ?_, ?_⟩
  · intro hchk
    simp [TransactionPoolAdapter.transactions, hchk]
  · intro cid hchk
    simp only [TransactionPoolAdapter.transactions, hchk]
    rw [cull_and_get_pending]
    rw [cullSweep_ready_filter api cid s.records []]
    rw [List.map_map]
    rfl

/-- C9 witness: the concrete adapter call equals the Ready-filtered sweep
over the resident records. -/
theorem c9_witness :
    TransactionPoolAdapter.transactions (Except.ok 0) apiOk poolR
      = ((sweepVerdicts apiOk 0 [] poolR.records).filter
          (fun p => p.2 == Readiness.ready)).map
          (fun p => (p.1.hash, p.1.primitive_extrinsic)) :=
  (c9_adapter_transactions apiOk poolR "" 0).2.2 0 rfl
